import Mathlib

/-!
Verification of the `cachestorage` storage orchestration layer
(`src/worker.ts`: class `CacheLocalStorage` plus the service-worker message
handler).  JavaScript values that can flow through the store are modelled by
`JValue`; the platform capabilities the code consumes (JSON, gzip, base64,
AES-GCM) are modelled by a `Codecs` record of function parameters, while the
orchestration logic itself (validation, compression decision, quota check,
metadata, dual backend, read cache) is translated statement by statement from
the source.
-/

set_option maxRecDepth 10000
set_option linter.unusedVariables false

namespace CacheStorage

/-- A JSON-serializable JavaScript value (the values `setItem` accepts). -/
inductive JValue where
  | null
  | bool (b : Bool)
  | num (n : Int)
  | str (s : String)
  | arr (xs : List JValue)
  | obj (fs : List (String × JValue))
  deriving Repr

/-- JavaScript `typeof` on a `JValue`.  `typeof null`, `typeof []` and
`typeof {}` are all `"object"` (source: `validateSchema` uses
`typeof value !== def.type`). -/
def typeofJ : JValue → String
  | .null => "object"
  | .bool _ => "boolean"
  | .num _ => "number"
  | .str _ => "string"
  | .arr _ => "object"
  | .obj _ => "object"

/-- JavaScript truthiness of a `JValue` (used by the source's
`if (cachedData)`, `!current.data` and `!storedData.data` checks). -/
def jsTruthy : JValue → Bool
  | .null => false
  | .bool b => b
  | .num n => n != 0
  | .str s => s ≠ ""
  | .arr _ => true
  | .obj _ => true

/-- Parse a string as a canonical JavaScript array index: `some n` iff the
string is exactly the decimal representation of `n`. -/
def canonicalIndex? (key : String) : Option Nat :=
  match key.toNat? with
  | some n => if Nat.repr n = key then some n else none
  | none => none

/-- JavaScript property access `value[key]`, returning `none` for
`undefined`: association lookup on objects, canonical numeric indexing on
arrays and strings. -/
def jsIndex (v : JValue) (key : String) : Option JValue :=
  match v with
  | .obj fs => fs.lookup key
  | .arr xs =>
      match canonicalIndex? key with
      | some n => xs.get? n
      | none => none
  | .str s =>
      match canonicalIndex? key with
      | some n => (s.data.get? n).map (fun c => .str (String.mk [c]))
      | none => none
  | _ => none

/-- One field declaration of a validation schema
(source: `SchemaDefinition` in `types.ts`). -/
structure SchemaDef where
  type : String
  required : Bool := false
  validate : Option (JValue → Bool) := none

/-- A schema: field name / definition pairs, iterated in declaration order
(source: `Object.entries(schema)`). -/
abbrev SchemaJ := List (String × SchemaDef)

/-- `CacheLocalStorage.validateSchema` (worker.ts lines 316–337): for each
declared field, throw on a missing required field, then — when the field is
present — on a `typeof` mismatch and on a failing custom predicate.  Errors
are modelled as `Except.error` with the source's message prefix. -/
def validateSchema (data : JValue) : SchemaJ → Except String Unit
  | [] => .ok ()
  | (key, def_) :: rest =>
      match jsIndex data key with
      | none =>
          if def_.required then
            .error ("Required field missing: " ++ key)
          else
            validateSchema data rest
      | some value =>
          if typeofJ value ≠ def_.type then
            .error ("Invalid type for " ++ key)
          else if def_.validate.elim true (fun p => p value) = false then
            .error ("Validation failed for " ++ key)
          else
            validateSchema data rest

/-- Whether a result of `validateSchema` is a success. -/
def vOk : Except String Unit → Bool
  | .ok _ => true
  | .error _ => false

/-- Byte length of a string's UTF-8 encoding: models both
`new Blob([s]).size` and `new TextEncoder().encode(s).length`. -/
def strBytes (s : String) : Nat :=
  s.data.foldl (fun n c => n + c.utf8Size) 0

/-- The encrypted envelope produced by `CacheLocalStorage.encrypt`
(source: `EncryptedData` in `types.ts`): ciphertext byte array, IV byte
array, and the flag recording whether the pre-encryption form was a
`Uint8Array`. -/
structure EncryptedDataM where
  data : List Nat
  iv : List Nat
  wasCompressed : Bool
  deriving Repr, DecidableEq

/-- The runtime value occupying the `data` slot of a stored entry.
`str` is a plain JavaScript string, `bytes` a `Uint8Array`, `enc` an
`EncryptedData` object, and `objNums` the plain indexed object that a
`Uint8Array` becomes after a `JSON.stringify` / `JSON.parse` round trip
through the direct (no-worker) cache backend. -/
inductive Payload where
  | str (s : String)
  | bytes (b : List Nat)
  | enc (e : EncryptedDataM)
  | objNums (b : List Nat)
  deriving Repr, DecidableEq

/-- Whether the payload is a `Uint8Array`
(source: `compressed instanceof Uint8Array`, `data instanceof Uint8Array`). -/
def isBytesP : Payload → Bool
  | .bytes _ => true
  | _ => false

/-- JavaScript truthiness of a payload value (`!storedData.data`): the empty
string is falsy, every object — including arrays and envelopes — is truthy. -/
def payloadTruthy : Payload → Bool
  | .str s => s ≠ ""
  | _ => true

/-- Byte size recorded for a freshly encoded payload (worker.ts lines
507–510): `compressed instanceof Uint8Array ? compressed.length :
new Blob([compressed]).size`. -/
def payloadSize : Payload → Nat
  | .str s => strBytes s
  | .bytes b => b.length
  | .enc e => e.data.length
  | .objNums b => b.length

/-- The `metadata` block stored alongside every entry
(worker.ts lines 518–522). -/
structure MetadataM where
  compressed : Bool
  originalSize : Nat
  compressedSize : Nat
  deriving Repr, DecidableEq

/-- A persisted entry: `{data, metadata}` as built by `setItem`
(worker.ts lines 516–523). -/
structure StoredData where
  data : Payload
  metadata : MetadataM
  deriving Repr, DecidableEq

/-- One entry of the service worker's in-memory map (worker message
handler, `storage.set(key, {data, size, timestamp})`; the timestamp is an
advisory header value and is not modelled). -/
structure WorkerEntry where
  data : StoredData
  size : Nat
  deriving Repr, DecidableEq

/-- Construction-time configuration of a `CacheLocalStorage` instance
(worker.ts lines 106–122), together with the two environment capabilities
the constructor probes (`hasServiceWorker`, `hasWebCrypto`). -/
structure Config where
  maxSize : Nat := 52428800
  encryptionKey : Option String := none
  hasWebCrypto : Bool := true
  hasServiceWorker : Bool := true
  compressionEnabled : Bool := false
  threshold : Nat := 1024

/-- The platform capabilities consumed by the pipeline, kept as function
parameters: `JSON.stringify`/`JSON.parse`, gzip via
`CompressionStream`/`DecompressionStream` (`none` models unavailability or
failure), the `btoa`/`atob` byte-to-string conversion used by
`dataToString`/`stringToData`, AES-GCM keyed encryption over the UTF-8
bytes of a string, and the blob size of a persisted direct-backend entry. -/
structure Codecs where
  stringify : JValue → String
  parse : String → Option JValue
  gzip : String → Option (List Nat)
  gunzip : List Nat → Option String
  b64 : List Nat → String
  unb64 : String → List Nat
  encryptBytes : String → String → List Nat → List Nat
  decryptBytes : String → List Nat → List Nat → Option String
  persistedLen : StoredData → Nat

/-- Mutable state of one facade instance plus the backends it talks to:
the instance's `currentSize` counter and `cacheStore` read cache, the
worker's in-memory `storage` map, and the platform cache entries under the
instance's namespace. -/
structure FacadeState where
  currentSize : Nat
  cacheStore : List (String × JValue)
  workerMap : List (String × WorkerEntry)
  persistentCache : List (String × StoredData)
  deriving Repr

/-- Association-list update modelling `Map.set`: replace the existing
binding in place, else append. -/
def aset {α : Type} : List (String × α) → String → α → List (String × α)
  | [], k, v => [(k, v)]
  | (k', v') :: rest, k, v =>
      if k' = k then (k, v) :: rest else (k', v') :: aset rest k v

/-- Association-list removal modelling `Map.delete` / `cache.delete`. -/
def adel {α : Type} : List (String × α) → String → List (String × α)
  | [], _ => []
  | (k', v') :: rest, k =>
      if k' = k then rest else (k', v') :: adel rest k

/-- Association-list lookup modelling `Map.get` / `cache.match`
(`none` is JavaScript `undefined`). -/
def alookup {α : Type} : List (String × α) → String → Option α
  | [], _ => none
  | (k', v') :: rest, k => if k' = k then some v' else alookup rest k

/-- `CacheLocalStorage.compress` (worker.ts lines 343–389): skip when
compression is disabled or the UTF-8 length is below the threshold; on any
failure or missing capability fall back to the original string; otherwise
return the gzip bytes. -/
def compress (cfg : Config) (c : Codecs) (data : String) : Payload :=
  if cfg.compressionEnabled = false then .str data
  else if strBytes data < cfg.threshold then .str data
  else
    match c.gzip data with
    | some bs => .bytes bs
    | none => .str data

/-- `CacheLocalStorage.decompress` (worker.ts lines 395–438) composed with
the `JSON.parse` coercion that follows it: string payloads pass through;
gzip bytes are decompressed when compression is enabled; any other shape
(a JSON-mangled byte object, an envelope, or bytes with compression
disabled) makes the downstream step throw, modelled as `none`. -/
def decompressP (cfg : Config) (c : Codecs) : Payload → Option String
  | .str s => some s
  | .bytes b => if cfg.compressionEnabled then c.gunzip b else none
  | _ => none

/-- `CacheLocalStorage.dataToString` (worker.ts lines 212–218): identity on
strings, base64 via `btoa` on `Uint8Array`s.  The remaining arms are
unreachable at its call site. -/
def dataToString (c : Codecs) : Payload → String
  | .str s => s
  | .bytes b => c.b64 b
  | .enc _ => ""
  | .objNums b => c.b64 b

/-- `CacheLocalStorage.encrypt` (worker.ts lines 244–277): requires a key
and WebCrypto, converts the payload to a string, encrypts its UTF-8 bytes
under the configured key with the supplied IV, and records whether the
plaintext was binary.  `none` models the thrown
"Encryption not available". -/
def encryptP (cfg : Config) (c : Codecs) (iv : List Nat) (p : Payload) :
    Option EncryptedDataM :=
  match cfg.encryptionKey, cfg.hasWebCrypto with
  | some k, true => some ⟨c.encryptBytes k (dataToString c p) iv, iv, isBytesP p⟩
  | _, _ => none

/-- `CacheLocalStorage.decrypt` (worker.ts lines 283–310) including the
`stringToData` format recovery: decrypt the envelope's ciphertext with the
stored IV, then base64-decode back to bytes when the plaintext had been
binary.  `none` models a thrown error (no key/WebCrypto, a non-envelope
input, or an authentication failure). -/
def decryptP (cfg : Config) (c : Codecs) : Payload → Option Payload
  | .enc e =>
      match cfg.encryptionKey, cfg.hasWebCrypto with
      | some k, true =>
          (c.decryptBytes k e.data e.iv).map
            (fun s => if e.wasCompressed then Payload.bytes (c.unb64 s) else .str s)
      | _, _ => none
  | _ => none

/-- The `data` slot `setItem` persists (worker.ts line 517):
`this.encryptionKey ? await this.encrypt(compressed) : compressed`,
with `none` modelling a thrown encryption error. -/
def encodePayload (cfg : Config) (c : Codecs) (iv : List Nat) (p : Payload) :
    Option Payload :=
  match cfg.encryptionKey with
  | some _ => (encryptP cfg c iv p).map .enc
  | none => some p

/-- Image of a payload after `JSON.stringify` + `JSON.parse` (the direct
backend's `storeInCache` / `response.json()` channel): a `Uint8Array`
serializes as a plain object of indexed numbers; strings, number arrays
and envelopes round-trip unchanged. -/
def jsonRoundPayload : Payload → Payload
  | .bytes b => .objNums b
  | p => p

/-- A stored entry after the direct backend's JSON channel. -/
def jsonRoundStored (sd : StoredData) : StoredData :=
  { sd with data := jsonRoundPayload sd.data }

/-- The worker's `persistToCache` (worker message handler): for every entry
of the in-memory map, `cache.put` a JSON snapshot of the entry under the
fixed URL scheme — an upsert per key that leaves unrelated cache entries
in place. -/
def mirror (wm : List (String × WorkerEntry))
    (pc : List (String × StoredData)) : List (String × StoredData) :=
  wm.foldl (fun acc kv => aset acc kv.1 (jsonRoundStored kv.2.data)) pc

/-- The `{success, data?, error?}` object every item operation resolves
with (source: `StorageResult<T>` in `types.ts`). -/
structure StorageResultM where
  success : Bool
  data : Option JValue := none
  error : Option String := none
  deriving Repr

/-- A failure result `{success:false, error}` (the `catch` arms). -/
def failR (e : String) : StorageResultM := ⟨false, none, some e⟩

/-- `CacheLocalStorage.setItem` (worker.ts lines 493–545): validate against
the schema when given, serialize, compress, measure, reject on quota,
optionally encrypt, persist through the selected backend (worker message
`store` + background mirror, or direct `storeInCache` through the JSON
channel), then bump the size counter and populate the read cache.
Every thrown error is caught and returned as a failure result with the
pre-throw state unchanged.  `iv` is the random IV
`crypto.getRandomValues` would draw for this call. -/
def setItemM (cfg : Config) (c : Codecs) (iv : List Nat) (st : FacadeState)
    (key : String) (data : JValue) (schema : Option SchemaJ) :
    StorageResultM × FacadeState :=
  match schema.elim (Except.ok ()) (validateSchema data) with
  | .error e => (failR e, st)
  | .ok _ =>
      let serialized := c.stringify data
      let compressed := compress cfg c serialized
      let size := payloadSize compressed
      if cfg.maxSize < st.currentSize + size then
        (failR "Storage quota exceeded", st)
      else
        match encodePayload cfg c iv compressed with
        | none => (failR "Encryption not available", st)
        | some p =>
            let storageData : StoredData :=
              ⟨p, ⟨isBytesP compressed, strBytes serialized, size⟩⟩
            let st1 :=
              if cfg.hasServiceWorker then
                let wm := aset st.workerMap key ⟨storageData, size⟩
                { st with workerMap := wm,
                          persistentCache := mirror wm st.persistentCache }
              else
                { st with
                  persistentCache := aset st.persistentCache key (jsonRoundStored storageData) }
            (⟨true, some data, none⟩,
              { st1 with currentSize := st1.currentSize + size,
                         cacheStore := aset st1.cacheStore key data })

/-- The backend read `getItem` performs on a cache miss: the worker's
`retrieve` message answers from its in-memory map (`null` when absent);
the direct backend matches the cache entry written through the JSON
channel.  Both absences surface as the same "Item not found". -/
def backendLookup (cfg : Config) (st : FacadeState) (key : String) :
    Option StoredData :=
  if cfg.hasServiceWorker then (alookup st.workerMap key).map (·.data)
  else alookup st.persistentCache key

/-- The decode sequence of `getItem` (worker.ts lines 579–587): decrypt
when a key is configured, decompress when the metadata says the entry is
compressed (else the payload must already be a string), then
`JSON.parse`.  `none` models any thrown error on the way. -/
def decodeStored (cfg : Config) (c : Codecs) (sd : StoredData) :
    Option JValue :=
  let decrypted : Option Payload :=
    match cfg.encryptionKey with
    | some _ => decryptP cfg c sd.data
    | none => some sd.data
  match decrypted with
  | none => none
  | some d =>
      let text : Option String :=
        if sd.metadata.compressed then decompressP cfg c d
        else match d with
          | .str s => some s
          | _ => none
      match text with
      | none => none
      | some t => c.parse t

/-- The cache-miss path of `getItem` (worker.ts lines 559–593): backend
read, the `!storedData || !storedData.data` absence check, decode, then
populate the read cache.  The third component records that the backend
was consulted. -/
def getItemBackend (cfg : Config) (c : Codecs) (st : FacadeState)
    (key : String) : StorageResultM × FacadeState × Bool :=
  match backendLookup cfg st key with
  | none => (failR "Item not found", st, true)
  | some sd =>
      if payloadTruthy sd.data = false then (failR "Item not found", st, true)
      else
        match decodeStored cfg c sd with
        | none => (failR "Corrupt data", st, true)
        | some parsed =>
            (⟨true, some parsed, none⟩,
              { st with cacheStore := aset st.cacheStore key parsed }, true)

/-- `CacheLocalStorage.getItem` (worker.ts lines 550–594): the read cache
short-circuits only when it holds a truthy value (`if (cachedData)`);
otherwise the backend path runs.  The third component is `true` iff a
backend call was made. -/
def getItemM (cfg : Config) (c : Codecs) (st : FacadeState) (key : String) :
    StorageResultM × FacadeState × Bool :=
  match alookup st.cacheStore key with
  | some v =>
      if jsTruthy v then (⟨true, some v, none⟩, st, false)
      else getItemBackend cfg c st key
  | none => getItemBackend cfg c st key

/-- JavaScript object-spread of an arbitrary value (`{...current.data}`):
objects contribute their fields, arrays and strings their indexed
elements, primitives nothing. -/
def spreadFields : JValue → List (String × JValue)
  | .obj fs => fs
  | .arr xs => xs.enum.map (fun p => (Nat.repr p.1, p.2))
  | .str s => s.data.enum.map (fun p => (Nat.repr p.1, JValue.str (String.mk [p.2])))
  | _ => []

/-- `{...base, ...updates}`: keys of `base` in order with `updates`
overriding, then the new keys of `updates` appended. -/
def mergeSpread (base updates : List (String × JValue)) :
    List (String × JValue) :=
  base.map (fun kv => (kv.1, (alookup updates kv.1).getD kv.2)) ++
    updates.filter (fun kv => (alookup base kv.1).isNone)

/-- `CacheLocalStorage.updateItem` (worker.ts lines 599–615): read the
current value, throw "not found" unless the read succeeded AND the decoded
value is truthy (`!current.success || !current.data`), then delegate to
`setItem` with the spread-merge of the partial update over it. -/
def updateItemM (cfg : Config) (c : Codecs) (iv : List Nat)
    (st : FacadeState) (key : String) (updates : List (String × JValue))
    (schema : Option SchemaJ) : StorageResultM × FacadeState :=
  let g := getItemM cfg c st key
  match g.1.success, g.1.data with
  | true, some d =>
      if jsTruthy d then
        setItemM cfg c iv g.2.1 key (.obj (mergeSpread (spreadFields d) updates)) schema
      else (failR ("Item with key " ++ key ++ " not found"), g.2.1)
  | _, _ => (failR ("Item with key " ++ key ++ " not found"), g.2.1)

/-- `CacheLocalStorage.removeItem` (worker.ts lines 617–626): delete the
key's entry from the platform cache and the read cache, and return a bare
boolean.  It does not message the worker (whose map keeps the entry), nor
decrement `currentSize`. -/
def removeItemM (st : FacadeState) (key : String) : Bool × FacadeState :=
  (true, { st with persistentCache := adel st.persistentCache key,
                   cacheStore := adel st.cacheStore key })

/-- `CacheLocalStorage.clear` (worker.ts lines 628–636): delete the whole
namespace from the platform cache and empty the read cache; the worker map
and the size counter are untouched. -/
def clearM (st : FacadeState) : Bool × FacadeState :=
  (true, { st with persistentCache := [], cacheStore := [] })

/-- `CacheLocalStorage.calculateCurrentSize` (worker.ts lines 167–187):
with a worker, ask it for the sum of recorded entry sizes; otherwise sum
the blob sizes of all cache responses in the namespace. -/
def calculateCurrentSizeM (cfg : Config) (c : Codecs) (st : FacadeState) :
    FacadeState :=
  if cfg.hasServiceWorker then
    { st with currentSize := (st.workerMap.map (fun kv => kv.2.size)).sum }
  else
    { st with currentSize := (st.persistentCache.map (fun kv => c.persistedLen kv.2)).sum }

/-- The `{used, total, available, percentUsed}` object `getStats` resolves
with (source: `StorageStats` in `types.ts`); `available` and `percentUsed`
are JavaScript number arithmetic, modelled on `Int` and `Rat`. -/
structure StorageStatsM where
  used : Nat
  total : Nat
  available : Int
  percentUsed : Rat
  deriving Repr

/-- `CacheLocalStorage.getStats` (worker.ts lines 640–648): recompute the
size, then report it against the quota. -/
def getStatsM (cfg : Config) (c : Codecs) (st : FacadeState) :
    StorageStatsM × FacadeState :=
  let st1 := calculateCurrentSizeM cfg c st
  ({ used := st1.currentSize, total := cfg.maxSize,
     available := (cfg.maxSize : Int) - (st1.currentSize : Int),
     percentUsed := (st1.currentSize : Rat) / (cfg.maxSize : Rat) * 100 }, st1)

/-- The compression statistics object `getCompressionStats` resolves with
(worker.ts lines 443–488). -/
structure CompStatsM where
  compressed : Bool
  originalSize : Nat
  compressedSize : Nat
  savingsPercent : Rat
  deriving Repr

/-- `CacheLocalStorage.getCompressionStats` (worker.ts lines 443–488):
read the stored entry through the backend without decoding its payload and
report its metadata; `none` when the key is absent (and on any caught
error). -/
def getCompressionStatsM (cfg : Config) (c : Codecs) (st : FacadeState)
    (key : String) : Option CompStatsM :=
  match backendLookup cfg st key with
  | none => none
  | some sd =>
      some { compressed := sd.metadata.compressed,
             originalSize := sd.metadata.originalSize,
             compressedSize := sd.metadata.compressedSize,
             savingsPercent :=
               ((sd.metadata.originalSize : Rat) - (sd.metadata.compressedSize : Rat)) /
                 (sd.metadata.originalSize : Rat) * 100 }

/-! ### A concrete JSON codec

`JSON.stringify` / `JSON.parse` as used by the library on `JValue`s (no
escape sequences — the scenario values contain none), serving as the
concrete instantiation of the `Codecs` capability record in closed
scenario theorems. -/

/-- `String(n)` for a JavaScript integer. -/
def intRepr (n : Int) : String :=
  if n < 0 then "-" ++ Nat.repr n.natAbs else Nat.repr n.natAbs

mutual

/-- `JSON.stringify` on a `JValue` (integer numbers, no string escaping). -/
def jstringify : JValue → String
  | .null => "null"
  | .bool true => "true"
  | .bool false => "false"
  | .num n => intRepr n
  | .str s => "\"" ++ s ++ "\""
  | .arr xs => "[" ++ jstringifyArr xs ++ "]"
  | .obj fs => "\x7b" ++ jstringifyObj fs ++ "\x7d"

/-- Comma-separated serialization of array elements. -/
def jstringifyArr : List JValue → String
  | [] => ""
  | [x] => jstringify x
  | x :: y :: rest => jstringify x ++ "," ++ jstringifyArr (y :: rest)

/-- Comma-separated serialization of object fields. -/
def jstringifyObj : List (String × JValue) → String
  | [] => ""
  | [(k, v)] => "\"" ++ k ++ "\":" ++ jstringify v
  | (k, v) :: f :: rest =>
      "\"" ++ k ++ "\":" ++ jstringify v ++ "," ++ jstringifyObj (f :: rest)

end

/-- Read a run of decimal digits. -/
def parseDigits (cs : List Char) : Option (Nat × List Char) :=
  let ds := cs.takeWhile (fun c => c.isDigit)
  if ds.isEmpty then none
  else some (ds.foldl (fun n c => n * 10 + (c.toNat - 48)) 0,
             cs.dropWhile (fun c => c.isDigit))

mutual

/-- Fuel-indexed recursive-descent `JSON.parse` for the fragment
`jstringify` emits. -/
def jparseV : Nat → List Char → Option (JValue × List Char)
  | 0, _ => none
  | fuel + 1, cs =>
      match cs with
      | 'n' :: 'u' :: 'l' :: 'l' :: rest => some (.null, rest)
      | 't' :: 'r' :: 'u' :: 'e' :: rest => some (.bool true, rest)
      | 'f' :: 'a' :: 'l' :: 's' :: 'e' :: rest => some (.bool false, rest)
      | '"' :: rest =>
          (match rest.dropWhile (fun c => c ≠ '"') with
           | '"' :: r => some (.str (String.mk (rest.takeWhile (fun c => c ≠ '"'))), r)
           | _ => none)
      | '-' :: rest => (parseDigits rest).map (fun p => (.num (-(p.1 : Int)), p.2))
      | '[' :: ']' :: rest => some (.arr [], rest)
      | '[' :: rest => (jparseElems fuel rest).map (fun p => (.arr p.1, p.2))
      | '\x7b' :: '\x7d' :: rest => some (.obj [], rest)
      | '\x7b' :: rest => (jparseFields fuel rest).map (fun p => (.obj p.1, p.2))
      | _ => (parseDigits cs).map (fun p => (.num (p.1 : Int), p.2))

/-- Parse array elements after the opening bracket. -/
def jparseElems : Nat → List Char → Option (List JValue × List Char)
  | 0, _ => none
  | fuel + 1, cs =>
      match jparseV fuel cs with
      | none => none
      | some (v, rest) =>
          match rest with
          | ',' :: r2 => (jparseElems fuel r2).map (fun p => (v :: p.1, p.2))
          | ']' :: r2 => some ([v], r2)
          | _ => none

/-- Parse object fields after the opening brace. -/
def jparseFields : Nat → List Char → Option (List (String × JValue) × List Char)
  | 0, _ => none
  | fuel + 1, cs =>
      match cs with
      | '"' :: rest =>
          (match rest.dropWhile (fun c => c ≠ '"') with
           | '"' :: ':' :: r2 =>
               (match jparseV fuel r2 with
                | none => none
                | some (v, r3) =>
                    let key := String.mk (rest.takeWhile (fun c => c ≠ '"'))
                    match r3 with
                    | ',' :: r4 =>
                        (jparseFields fuel r4).map (fun p => ((key, v) :: p.1, p.2))
                    | '\x7d' :: r4 => some ([(key, v)], r4)
                    | _ => none)
           | _ => none)
      | _ => none

end

/-- `JSON.parse` on a whole string. -/
def jparse (s : String) : Option JValue :=
  match jparseV (2 * s.length + 2) s.data with
  | some (v, []) => some v
  | _ => none

/-- UTF code points of a string (used to build concrete byte-level codecs). -/
def strToNats (s : String) : List Nat := s.data.map Char.toNat

/-- Inverse of `strToNats` on valid code points. -/
def natsToStr (l : List Nat) : String := String.mk (l.map Char.ofNat)

/-- A concrete instantiation of the platform capabilities: real
`JSON.stringify`/`JSON.parse`, and invertible stand-ins for the gzip,
base64 and AES-GCM capabilities, used to evaluate the model at concrete
inputs. -/
def demoCodecs : Codecs where
  stringify := jstringify
  parse := jparse
  gzip := fun s => some (strToNats s)
  gunzip := fun b => some (natsToStr b)
  b64 := natsToStr
  unb64 := strToNats
  encryptBytes := fun _k s _iv => 7 :: strToNats s
  decryptBytes := fun _k b _iv =>
    match b with
    | 7 :: rest => some (natsToStr rest)
    | _ => none
  persistedLen := fun sd => sd.metadata.compressedSize + 40

/-! ### Effect traces

The order in which each public method performs its awaits and its touches
of the backend and the size counter, read off the statement order of the
source.  `runInit` is the one-time `init()` call (worker registration +
initial size computation); `awaitInit` is an `await this.initPromise`. -/

/-- One observable step of a public method. -/
inductive Step where
  | runInit
  | awaitInit
  | validateStep
  | backendCall
  | sizeRead
  | sizeWrite
  | readCacheOp
  deriving DecidableEq, Repr

/-- The constructor (worker.ts lines 106–122): creates `initPromise` by
running `init()` — the only place initialization runs. -/
def constructorSteps : List Step := [Step.runInit]

/-- `setItem` (lines 498–541): await init, validate, quota check (reads
the size counter), backend put, size bump, read-cache insert. -/
def setItemSteps : List Step :=
  [Step.awaitInit, Step.validateStep, Step.sizeRead, Step.backendCall,
   Step.sizeWrite, Step.readCacheOp]

/-- `getItem` (lines 552–588): await init, read-cache probe, backend get,
read-cache insert. -/
def getItemSteps : List Step :=
  [Step.awaitInit, Step.readCacheOp, Step.backendCall, Step.readCacheOp]

/-- `updateItem` (lines 605–611): a `getItem` followed by a `setItem`. -/
def updateItemSteps : List Step := getItemSteps ++ setItemSteps

/-- `removeItem` (lines 617–626): platform-cache delete and read-cache
delete — no `await this.initPromise` anywhere. -/
def removeItemSteps : List Step := [Step.backendCall, Step.readCacheOp]

/-- `clear` (lines 628–636): namespace delete and read-cache clear — no
`await this.initPromise`. -/
def clearSteps : List Step := [Step.backendCall, Step.readCacheOp]

/-- `getStats` (lines 640–648): `calculateCurrentSize` (a backend call
that writes the counter) then reads the counter — no
`await this.initPromise`. -/
def getStatsSteps : List Step := [Step.backendCall, Step.sizeWrite, Step.sizeRead]

/-- `getCompressionStats` (lines 449–470): straight to a backend read —
no `await this.initPromise`. -/
def getCompressionStatsSteps : List Step := [Step.backendCall]

/-- Steps that touch the backend or the size counter. -/
def isTouch : Step → Bool
  | Step.backendCall => true
  | Step.sizeRead => true
  | Step.sizeWrite => true
  | _ => false

/-- `true` iff the trace touches the backend or the size counter before
its first `awaitInit`. -/
def touchesBeforeInit : List Step → Bool
  | [] => false
  | Step.awaitInit :: _ => false
  | s :: rest => if isTouch s then true else touchesBeforeInit rest

/-! ### Auxiliary predicates used to state the claims -/

/-- A read on which the local read cache cannot short-circuit: the same
backends viewed with an empty read cache. -/
def backendOnly (st : FacadeState) : FacadeState := { st with cacheStore := [] }

/-- The claim's predicate "the persisted payload differs from the plain
serialized form": a string payload differing from the serialized text, or
any non-string payload. -/
def payloadDiffersFrom (p : Payload) (serialized : String) : Bool :=
  match p with
  | .str s => s ≠ serialized
  | _ => true

/-- Whether one field declaration rejects the value: required-but-absent,
or present with a `typeof` mismatch or a failing custom predicate —
the three failure checks of `validateSchema` for one field. -/
def fieldFails (v : JValue) (kd : String × SchemaDef) : Bool :=
  match jsIndex v kd.1 with
  | none => kd.2.required
  | some x =>
      if typeofJ x ≠ kd.2.type then true
      else if kd.2.validate.elim true (fun p => p x) = false then true
      else false

/-- Well-formedness of a `{success, data?, error?}` result: success comes
with a value and no error, failure with an error. -/
def wfResult (r : StorageResultM) : Bool :=
  (r.success && r.data.isSome && r.error.isNone) || (!r.success && r.error.isSome)

/-- The boundary value each public method resolves its promise with:
`setItem`/`getItem`/`updateItem` resolve with a structured result,
`removeItem`/`clear` with a bare boolean, `getStats` with a stats object,
`getCompressionStats` with a stats object or `null`. -/
inductive PublicReturn where
  | result (r : StorageResultM)
  | boolean (b : Bool)
  | stats (s : StorageStatsM)
  | compStats (o : Option CompStatsM)

/-- Whether a boundary value is a structured `{success, data|error}`
result object. -/
def isStructuredResult : PublicReturn → Bool
  | .result _ => true
  | _ => false

/-- `setItem`'s boundary value. -/
def setItemPub (cfg : Config) (c : Codecs) (iv : List Nat) (st : FacadeState)
    (key : String) (v : JValue) (schema : Option SchemaJ) : PublicReturn :=
  .result (setItemM cfg c iv st key v schema).1

/-- `getItem`'s boundary value. -/
def getItemPub (cfg : Config) (c : Codecs) (st : FacadeState) (key : String) :
    PublicReturn :=
  .result (getItemM cfg c st key).1

/-- `updateItem`'s boundary value. -/
def updateItemPub (cfg : Config) (c : Codecs) (iv : List Nat) (st : FacadeState)
    (key : String) (updates : List (String × JValue)) (schema : Option SchemaJ) :
    PublicReturn :=
  .result (updateItemM cfg c iv st key updates schema).1

/-- `removeItem`'s boundary value: a bare boolean (worker.ts lines 622, 624). -/
def removeItemPub (st : FacadeState) (key : String) : PublicReturn :=
  .boolean (removeItemM st key).1

/-- `clear`'s boundary value: a bare boolean (worker.ts lines 632, 634). -/
def clearPub (st : FacadeState) : PublicReturn :=
  .boolean (clearM st).1

/-- `getStats`'s boundary value: a stats object with no `success` field. -/
def getStatsPub (cfg : Config) (c : Codecs) (st : FacadeState) : PublicReturn :=
  .stats (getStatsM cfg c st).1

/-- `getCompressionStats`'s boundary value: a stats object or `null`. -/
def getCompressionStatsPub (cfg : Config) (c : Codecs) (st : FacadeState)
    (key : String) : PublicReturn :=
  .compStats (getCompressionStatsM cfg c st key)

/-! ### Helper lemmas -/

theorem alookup_aset_self {α : Type} (l : List (String × α)) (k : String) (v : α) :
    alookup (aset l k v) k = some v := by
  induction l with
  | nil => simp [aset, alookup]
  | cons kv rest ih =>
      obtain ⟨k', v'⟩ := kv
      by_cases h : k' = k
      · simp [aset, alookup, h]
      · simp [aset, alookup, h, ih]

theorem compress_cases (cfg : Config) (c : Codecs) (s : String) :
    compress cfg c s = .str s ∨
      ∃ bs, compress cfg c s = .bytes bs ∧ cfg.compressionEnabled = true ∧
        c.gzip s = some bs := by
  unfold compress
  by_cases h1 : cfg.compressionEnabled = false
  · simp [h1]
  · simp only [if_neg h1]
    by_cases h2 : strBytes s < cfg.threshold
    · simp [h2]
    · simp only [if_neg h2]
      cases hg : c.gzip s with
      | none => simp
      | some bs =>
          right
          exact ⟨bs, rfl, by revert h1; cases cfg.compressionEnabled <;> simp, rfl⟩

theorem validate_ok_iff (v : JValue) (schema : SchemaJ) :
    vOk (validateSchema v schema) = true ↔ ∀ kd ∈ schema, fieldFails v kd = false := by
  induction schema with
  | nil => simp [validateSchema, vOk]
  | cons kd rest ih =>
      obtain ⟨key, d⟩ := kd
      rw [List.forall_mem_cons]
      show vOk (validateSchema v ((key, d) :: rest)) = true ↔ _
      unfold validateSchema
      cases h : jsIndex v key with
      | none =>
          cases hr : d.required with
          | false => simp [fieldFails, h, hr, ih]
          | true => simp [fieldFails, h, hr, vOk]
      | some x =>
          by_cases ht : typeofJ x ≠ d.type
          · simp [fieldFails, h, ht, vOk]
          · by_cases hp : d.validate.elim true (fun p => p x) = false
            · simp [fieldFails, h, ht, hp, vOk]
            · simp [fieldFails, h, ht, hp, ih]

theorem validate_same_on_schema_fields (v w : JValue) (schema : SchemaJ)
    (h : ∀ kd ∈ schema, jsIndex w kd.1 = jsIndex v kd.1) :
    validateSchema w schema = validateSchema v schema := by
  induction schema with
  | nil => rfl
  | cons kd rest ih =>
      obtain ⟨key, d⟩ := kd
      have h1 : jsIndex w key = jsIndex v key := h (key, d) (List.mem_cons_self _ _)
      have h2 : ∀ kd ∈ rest, jsIndex w kd.1 = jsIndex v kd.1 :=
        fun kd hkd => h kd (List.mem_cons_of_mem _ hkd)
      unfold validateSchema
      rw [h1]
      cases jsIndex v key with
      | none =>
          cases d.required with
          | false => exact ih h2
          | true => rfl
      | some x =>
          by_cases ht : typeofJ x ≠ d.type
          · simp [ht]
          · by_cases hp : d.validate.elim true (fun p => p x) = false
            · simp [ht, hp]
            · simp [ht, hp, ih h2]

theorem setItem_invalid (cfg : Config) (c : Codecs) (iv : List Nat)
    (st : FacadeState) (key : String) (v : JValue) (schema : SchemaJ)
    (h : vOk (validateSchema v schema) = false) :
    (setItemM cfg c iv st key v (some schema)).1.success = false ∧
      (setItemM cfg c iv st key v (some schema)).2 = st := by
  unfold setItemM
  cases hv : validateSchema v schema with
  | error e => simp [Option.elim, hv, failR]
  | ok u => rw [hv] at h; simp [vOk] at h

theorem setItemM_success (cfg : Config) (c : Codecs) (iv : List Nat)
    (st : FacadeState) (key : String) (v : JValue) (schema : Option SchemaJ)
    (h : (setItemM cfg c iv st key v schema).1.success = true) :
    ∃ p, encodePayload cfg c iv (compress cfg c (c.stringify v)) = some p ∧
      (setItemM cfg c iv st key v schema).1 = ⟨true, some v, none⟩ ∧
      alookup (setItemM cfg c iv st key v schema).2.cacheStore key = some v ∧
      backendLookup cfg (setItemM cfg c iv st key v schema).2 key =
        some ⟨(if cfg.hasServiceWorker then p else jsonRoundPayload p),
              ⟨isBytesP (compress cfg c (c.stringify v)),
               strBytes (c.stringify v),
               payloadSize (compress cfg c (c.stringify v))⟩⟩ := by
  revert h
  simp only [setItemM]
  cases hv : schema.elim (Except.ok ()) (validateSchema v) with
  | error e => intro h; simp [failR] at h
  | ok u =>
      by_cases hq : cfg.maxSize <
          st.currentSize + payloadSize (compress cfg c (c.stringify v))
      · rw [if_pos hq]; intro h; simp [failR] at h
      · rw [if_neg hq]
        cases he : encodePayload cfg c iv (compress cfg c (c.stringify v)) with
        | none => intro h; simp [failR] at h
        | some p =>
            intro h
            refine ⟨p, rfl, rfl, ?_, ?_⟩
            · cases hw : cfg.hasServiceWorker <;> simp [hw, alookup_aset_self]
            · cases hw : cfg.hasServiceWorker <;>
                simp [backendLookup, hw, alookup_aset_self, jsonRoundStored]

theorem wf_setItemM (cfg : Config) (c : Codecs) (iv : List Nat)
    (st : FacadeState) (key : String) (v : JValue) (schema : Option SchemaJ) :
    wfResult (setItemM cfg c iv st key v schema).1 = true := by
  simp only [setItemM]
  cases schema.elim (Except.ok ()) (validateSchema v) with
  | error e => simp [wfResult, failR]
  | ok u =>
      by_cases hq : cfg.maxSize <
          st.currentSize + payloadSize (compress cfg c (c.stringify v))
      · rw [if_pos hq]; simp [wfResult, failR]
      · rw [if_neg hq]
        cases encodePayload cfg c iv (compress cfg c (c.stringify v)) with
        | none => simp [wfResult, failR]
        | some p => simp [wfResult]

theorem wf_getItemBackend (cfg : Config) (c : Codecs) (st : FacadeState)
    (key : String) : wfResult (getItemBackend cfg c st key).1 = true := by
  simp only [getItemBackend]
  split
  · simp [wfResult, failR]
  · split
    · simp [wfResult, failR]
    · split
      · simp [wfResult, failR]
      · simp [wfResult]

theorem wf_getItemM (cfg : Config) (c : Codecs) (st : FacadeState)
    (key : String) : wfResult (getItemM cfg c st key).1 = true := by
  simp only [getItemM]
  cases alookup st.cacheStore key with
  | none => exact wf_getItemBackend cfg c st key
  | some v =>
      by_cases ht : jsTruthy v = true
      · simp [ht, wfResult]
      · simp only [Bool.not_eq_true] at ht
        simp [ht]
        exact wf_getItemBackend cfg c st key

theorem wf_updateItemM (cfg : Config) (c : Codecs) (iv : List Nat)
    (st : FacadeState) (key : String) (updates : List (String × JValue))
    (schema : Option SchemaJ) :
    wfResult (updateItemM cfg c iv st key updates schema).1 = true := by
  simp only [updateItemM]
  cases hs : (getItemM cfg c st key).1.success with
  | false => cases (getItemM cfg c st key).1.data <;> simp [wfResult, failR]
  | true =>
      cases (getItemM cfg c st key).1.data with
      | none => simp [wfResult, failR]
      | some d =>
          by_cases ht : jsTruthy d = true
          · simp [ht]; exact wf_setItemM ..
          · simp only [Bool.not_eq_true] at ht
            simp [ht, wfResult, failR]

theorem getItemBackend_found (cfg : Config) (c : Codecs) (st : FacadeState)
    (key : String) (sd : StoredData) (v : JValue)
    (hfound : backendLookup cfg st key = some sd)
    (htruthy : payloadTruthy sd.data = true)
    (hdec : decodeStored cfg c sd = some v) :
    (getItemBackend cfg c st key).1 = ⟨true, some v, none⟩ := by
  simp [getItemBackend, hfound, htruthy, hdec]

theorem getItemBackend_inserts (cfg : Config) (c : Codecs) (st : FacadeState)
    (key : String) (parsed : JValue)
    (hdata : (getItemBackend cfg c st key).1.data = some parsed) :
    alookup (getItemBackend cfg c st key).2.1.cacheStore key = some parsed := by
  revert hdata
  simp only [getItemBackend]
  split
  · simp [failR]
  · split
    · simp [failR]
    · split
      · simp [failR]
      · intro hdata
        simp only at hdata
        rename_i parsed2 heq
        simp only [Option.some.injEq] at hdata
        subst hdata
        simp [alookup_aset_self]

theorem decode_roundtrip (cfg : Config) (c : Codecs) (iv : List Nat)
    (v : JValue) (p : Payload)
    (hp : c.parse (c.stringify v) = some v)
    (hne : c.stringify v ≠ "")
    (hgz : ∀ bs, compress cfg c (c.stringify v) = .bytes bs →
      c.gunzip bs = some (c.stringify v))
    (hb64 : ∀ bs, compress cfg c (c.stringify v) = .bytes bs →
      c.unb64 (c.b64 bs) = bs)
    (hcrypt : ∀ k, cfg.encryptionKey = some k →
      c.decryptBytes k
          (c.encryptBytes k (dataToString c (compress cfg c (c.stringify v))) iv) iv =
        some (dataToString c (compress cfg c (c.stringify v))))
    (hsafe : cfg.hasServiceWorker = true ∨
      isBytesP (compress cfg c (c.stringify v)) = false ∨
      cfg.encryptionKey ≠ none)
    (henc : encodePayload cfg c iv (compress cfg c (c.stringify v)) = some p) :
    decodeStored cfg c
        ⟨(if cfg.hasServiceWorker then p else jsonRoundPayload p),
         ⟨isBytesP (compress cfg c (c.stringify v)), strBytes (c.stringify v),
          payloadSize (compress cfg c (c.stringify v))⟩⟩ = some v ∧
    payloadTruthy (if cfg.hasServiceWorker then p else jsonRoundPayload p) = true := by
  cases hek : cfg.encryptionKey with
  | none =>
      simp only [encodePayload, hek, Option.some.injEq] at henc
      subst henc
      rcases compress_cases cfg c (c.stringify v) with hc | ⟨bs, hc, henab, hgzv⟩
      · rw [hc]
        have hq : (if cfg.hasServiceWorker then Payload.str (c.stringify v)
            else jsonRoundPayload (.str (c.stringify v))) = .str (c.stringify v) := by
          cases cfg.hasServiceWorker <;> rfl
        rw [hq]
        constructor
        · simp [decodeStored, hek, isBytesP, hp]
        · simp [payloadTruthy, hne]
      · rcases hsafe with hw | hnb | hkk
        · rw [hc, hw]
          constructor
          · simp [decodeStored, hek, isBytesP, decompressP, henab, hgz bs hc, hp]
          · rfl
        · rw [hc] at hnb; exact absurd hnb (by simp [isBytesP])
        · exact absurd hek hkk
  | some k =>
      cases hwc : cfg.hasWebCrypto with
      | false => simp [encodePayload, hek, encryptP, hwc] at henc
      | true =>
          simp only [encodePayload, hek, encryptP, hwc, Option.map_some',
            Option.some.injEq] at henc
          subst henc
          have hq : ∀ e : EncryptedDataM, (if cfg.hasServiceWorker then Payload.enc e
              else jsonRoundPayload (.enc e)) = .enc e := by
            intro e; cases cfg.hasServiceWorker <;> rfl
          rw [hq]
          refine ⟨?_, rfl⟩
          simp only [decodeStored, hek, decryptP, hwc, hcrypt k hek, Option.map_some]
          rcases compress_cases cfg c (c.stringify v) with hc | ⟨bs, hc, henab, hgzv⟩
          · rw [hc]
            simp [dataToString, isBytesP, hp]
          · rw [hc]
            simp [dataToString, isBytesP, decompressP, henab, hb64 bs hc,
              hgz bs hc, hp]

/-! ### Concrete fixtures -/

/-- A fresh facade instance over empty backends. -/
def st0 : FacadeState := ⟨0, [], [], []⟩

/-- The value `{x: 1}` of the spec's concrete scenario. -/
def vX : JValue := .obj [("x", .num 1)]

/-- The concrete scenario's configuration (`maxSize 1024`, compression
disabled) on the direct backend. -/
def cfgDirect : Config :=
  { maxSize := 1024, encryptionKey := none, hasWebCrypto := true,
    hasServiceWorker := false, compressionEnabled := false, threshold := 1024 }

/-- The concrete scenario's configuration with the worker backend active. -/
def cfgWorker : Config := { cfgDirect with hasServiceWorker := true }

/-- A direct-backend configuration with compression active (low threshold
so that small payloads compress). -/
def cfgCompressDirect : Config :=
  { maxSize := 100000, encryptionKey := none, hasWebCrypto := true,
    hasServiceWorker := false, compressionEnabled := true, threshold := 4 }

/-- A direct-backend configuration with an encryption key. -/
def cfgEnc : Config :=
  { maxSize := 100000, encryptionKey := some "secret", hasWebCrypto := true,
    hasServiceWorker := false, compressionEnabled := false, threshold := 1024 }

/-- A worker-backed configuration with both compression and encryption. -/
def cfgFull : Config :=
  { maxSize := 100000, encryptionKey := some "secret", hasWebCrypto := true,
    hasServiceWorker := true, compressionEnabled := true, threshold := 1 }

/-- State after `setItem("a", {x:1})` on the direct backend. -/
def stSetD : FacadeState := (setItemM cfgDirect demoCodecs [] st0 "a" vX none).2

/-- State after the subsequent `getItem("a")` on the direct backend. -/
def stGetD : FacadeState := (getItemM cfgDirect demoCodecs stSetD "a").2.1

/-- State after `setItem("a", {x:1})` on the worker backend. -/
def stSetW : FacadeState := (setItemM cfgWorker demoCodecs [] st0 "a" vX none).2

/-- State after the subsequent `getItem("a")` on the worker backend. -/
def stGetW : FacadeState := (getItemM cfgWorker demoCodecs stSetW "a").2.1

/-! ### Claim theorems -/

/-- **C9** (corrected): `setItem`, `getItem` and `updateItem` do await the
one-time initialization before touching the backend or the size counter,
and initialization itself runs only in the constructor; but `removeItem`,
`clear`, `getStats` and `getCompressionStats` never await it and touch the
backend or the size counter straight away. -/
theorem init_ordering_amended :
    touchesBeforeInit setItemSteps = false ∧
    setItemSteps.head? = some Step.awaitInit ∧
    touchesBeforeInit getItemSteps = false ∧
    getItemSteps.head? = some Step.awaitInit ∧
    touchesBeforeInit updateItemSteps = false ∧
    updateItemSteps.head? = some Step.awaitInit ∧
    Step.awaitInit ∉ removeItemSteps ∧ touchesBeforeInit removeItemSteps = true ∧
    Step.awaitInit ∉ clearSteps ∧ touchesBeforeInit clearSteps = true ∧
    Step.awaitInit ∉ getStatsSteps ∧ touchesBeforeInit getStatsSteps = true ∧
    Step.awaitInit ∉ getCompressionStatsSteps ∧
    touchesBeforeInit getCompressionStatsSteps = true ∧
    Step.runInit ∈ constructorSteps ∧
    Step.runInit ∉ setItemSteps ∧ Step.runInit ∉ getItemSteps ∧
    Step.runInit ∉ updateItemSteps ∧ Step.runInit ∉ removeItemSteps ∧
    Step.runInit ∉ clearSteps ∧ Step.runInit ∉ getStatsSteps ∧
    Step.runInit ∉ getCompressionStatsSteps := by
  decide

/-- **C9** (counterexample to the claim as stated): `removeItem` contains
no await of the initialization promise at all, yet touches the backend. -/
theorem init_ordering_counterexample :
    Step.awaitInit ∉ removeItemSteps ∧
    touchesBeforeInit removeItemSteps = true := by
  decide

/-- **C4** (corrected): the three item operations always return a
structured `{success, data|error}` result for every input — success with a
value and no error, failure with an error — and the other four return
normally but with bare booleans, a stats object, or stats-or-null. -/
theorem structured_results_amended (cfg : Config) (c : Codecs) (iv : List Nat)
    (st : FacadeState) (key : String) (v : JValue) (schema : Option SchemaJ)
    (updates : List (String × JValue)) :
    isStructuredResult (setItemPub cfg c iv st key v schema) = true ∧
    wfResult (setItemM cfg c iv st key v schema).1 = true ∧
    isStructuredResult (getItemPub cfg c st key) = true ∧
    wfResult (getItemM cfg c st key).1 = true ∧
    isStructuredResult (updateItemPub cfg c iv st key updates schema) = true ∧
    wfResult (updateItemM cfg c iv st key updates schema).1 = true ∧
    removeItemPub st key = .boolean true ∧
    clearPub st = .boolean true ∧
    (∃ s, getStatsPub cfg c st = .stats s) ∧
    (∃ o, getCompressionStatsPub cfg c st key = .compStats o) :=
  ⟨rfl, wf_setItemM .., rfl, wf_getItemM .., rfl, wf_updateItemM .., rfl, rfl,
   ⟨_, rfl⟩, ⟨_, rfl⟩⟩

/-- **C4** (counterexample to the claim as stated): `removeItem`, `clear`
and `getStats` do not resolve with a structured `{success, data|error}`
result object — the first two resolve with bare booleans, the third with a
stats object carrying no `success` field. -/
theorem structured_results_counterexample :
    isStructuredResult (removeItemPub st0 "a") = false ∧
    isStructuredResult (clearPub st0) = false ∧
    isStructuredResult (getStatsPub cfgDirect demoCodecs st0) = false :=
  ⟨rfl, rfl, rfl⟩

/-- **C5** (confirmed): validation fails whenever some schema field is
required and absent, and whenever a present field has a `typeof` mismatch
or a failing custom predicate; a failed validation makes `setItem` fail
with the backend state unchanged (the error is thrown before any backend
call); and validation only ever inspects the fields declared in the
schema. -/
theorem validator_semantics (v : JValue) (schema : SchemaJ) :
    ((∃ kd, kd ∈ schema ∧ kd.2.required = true ∧ jsIndex v kd.1 = none) →
      vOk (validateSchema v schema) = false) ∧
    ((∃ kd x, kd ∈ schema ∧ jsIndex v kd.1 = some x ∧
        (typeofJ x ≠ kd.2.type ∨ kd.2.validate.elim true (fun p => p x) = false)) →
      vOk (validateSchema v schema) = false) ∧
    (∀ cfg c iv st key, vOk (validateSchema v schema) = false →
      (setItemM cfg c iv st key v (some schema)).1.success = false ∧
      (setItemM cfg c iv st key v (some schema)).2 = st) ∧
    (∀ w, (∀ kd ∈ schema, jsIndex w kd.1 = jsIndex v kd.1) →
      validateSchema w schema = validateSchema v schema) := by
  refine ⟨?_, ?_, ?_, ?_⟩
  · rintro ⟨kd, hmem, hreq, hnone⟩
    by_contra hok
    simp only [Bool.not_eq_false] at hok
    have h2 := (validate_ok_iff v schema).mp hok kd hmem
    simp only [fieldFails, hnone, hreq] at h2
    exact Bool.noConfusion h2
  · rintro ⟨kd, x, hmem, hsome, hdisj⟩
    by_contra hok
    simp only [Bool.not_eq_false] at hok
    have h2 := (validate_ok_iff v schema).mp hok kd hmem
    simp only [fieldFails, hsome] at h2
    rcases hdisj with hty | hpred
    · rw [if_pos hty] at h2; exact absurd h2 (by simp)
    · by_cases hty : typeofJ x ≠ kd.2.type
      · rw [if_pos hty] at h2; exact absurd h2 (by simp)
      · rw [if_neg hty, if_pos hpred] at h2; exact absurd h2 (by simp)
  · intro cfg c iv st key h
    exact setItem_invalid cfg c iv st key v schema h
  · intro w h
    exact validate_same_on_schema_fields v w schema h

/-- **C5** (witness): a schema requiring field `a` rejects the empty
object. -/
theorem validator_semantics_witness :
    vOk (validateSchema (.obj []) [("a", ⟨"string", true, none⟩)]) = false :=
  (validator_semantics (.obj []) [("a", ⟨"string", true, none⟩)]).1
    ⟨("a", ⟨"string", true, none⟩), List.Mem.head _, rfl, rfl⟩

/-- **C10** (confirmed): a schema field declared with type `"array"` can
never be satisfied by an actual array value — `typeof` of an array is
`"object"`, so validation fails (on a singleton schema, precisely with the
type-mismatch error), and `setItem` with that schema fails with the
backend state unchanged. -/
theorem array_type_unsatisfiable (v : JValue) (schema : SchemaJ) (key : String)
    (d : SchemaDef) (xs : List JValue)
    (hmem : (key, d) ∈ schema) (hty : d.type = "array")
    (hval : jsIndex v key = some (.arr xs)) :
    vOk (validateSchema v schema) = false ∧
    validateSchema v [(key, d)] = .error ("Invalid type for " ++ key) ∧
    (∀ cfg c iv st k2, (setItemM cfg c iv st k2 v (some schema)).1.success = false ∧
      (setItemM cfg c iv st k2 v (some schema)).2 = st) := by
  have hne : typeofJ (JValue.arr xs) ≠ d.type := by
    rw [hty]
    show ("object" : String) ≠ "array"
    decide
  have hfail : vOk (validateSchema v schema) = false := by
    by_contra hok
    simp only [Bool.not_eq_false] at hok
    have h2 := (validate_ok_iff v schema).mp hok (key, d) hmem
    simp only [fieldFails, hval] at h2
    rw [if_pos hne] at h2
    exact absurd h2 (by simp)
  refine ⟨hfail, ?_, ?_⟩
  · show validateSchema v [(key, d)] = _
    simp only [validateSchema, hval]
    rw [if_pos hne]
  · intro cfg c iv st k2
    exact setItem_invalid cfg c iv st k2 v schema hfail

/-- **C10** (witness): a present array value under a schema field of type
`"array"` is rejected with the type-mismatch error. -/
theorem array_type_unsatisfiable_witness :
    vOk (validateSchema (.obj [("tags", .arr [.str "t"])])
      [("tags", ⟨"array", false, none⟩)]) = false ∧
    validateSchema (.obj [("tags", .arr [.str "t"])])
      [("tags", ⟨"array", false, none⟩)] = .error ("Invalid type for " ++ "tags") :=
  let h := array_type_unsatisfiable (.obj [("tags", .arr [.str "t"])])
    [("tags", ⟨"array", false, none⟩)] "tags" ⟨"array", false, none⟩ [.str "t"]
    (List.Mem.head _) rfl rfl
  ⟨h.1, h.2.1⟩

/-- **C2** (confirmed): when validation passes, `setItem` fails with the
"Storage quota exceeded" error exactly when the accounted size plus the
new entry's recorded size exceeds `maxSize`; the check precedes every
persistence side effect, so a rejected write leaves the whole state — the
backend maps, the read cache and the size counter — unchanged. -/
theorem quota_admission (cfg : Config) (c : Codecs) (iv : List Nat)
    (st : FacadeState) (key : String) (v : JValue) (schema : Option SchemaJ)
    (hv : vOk (schema.elim (Except.ok ()) (validateSchema v)) = true) :
    ((setItemM cfg c iv st key v schema).1.error = some "Storage quota exceeded" ↔
      st.currentSize + payloadSize (compress cfg c (c.stringify v)) > cfg.maxSize) ∧
    (st.currentSize + payloadSize (compress cfg c (c.stringify v)) > cfg.maxSize →
      (setItemM cfg c iv st key v schema).1.success = false ∧
      (setItemM cfg c iv st key v schema).2 = st) := by
  simp only [setItemM]
  cases hval : schema.elim (Except.ok ()) (validateSchema v) with
  | error e => rw [hval] at hv; simp [vOk] at hv
  | ok u =>
      by_cases hq : cfg.maxSize <
          st.currentSize + payloadSize (compress cfg c (c.stringify v))
      · rw [if_pos hq]
        exact ⟨⟨fun _ => hq, fun _ => rfl⟩, fun _ => ⟨rfl, rfl⟩⟩
      · rw [if_neg hq]
        cases encodePayload cfg c iv (compress cfg c (c.stringify v)) with
        | none =>
            refine ⟨⟨fun h => ?_, fun h => absurd h hq⟩, fun h => absurd h hq⟩
            simp only [failR, Option.some.injEq] at h
            exact absurd h (by decide)
        | some p =>
            exact ⟨⟨fun h => by simp at h, fun h => absurd h hq⟩,
                   fun h => absurd h hq⟩

/-- **C2** (witness): with `maxSize 3` the seven-byte entry for
`"hello"` is rejected with the quota error and the state is unchanged. -/
theorem quota_admission_witness :
    (setItemM { cfgDirect with maxSize := 3 } demoCodecs [] st0 "a"
        (.str "hello") none).1.error = some "Storage quota exceeded" ∧
    (setItemM { cfgDirect with maxSize := 3 } demoCodecs [] st0 "a"
        (.str "hello") none).2 = st0 :=
  let h := quota_admission { cfgDirect with maxSize := 3 } demoCodecs [] st0 "a"
    (.str "hello") none rfl
  ⟨h.1.mpr (by decide), (h.2 (by decide)).2⟩

/-- **C1** (corrected): a successful `setItem` followed by a backend-decoding
`getItem` returns exactly the original value — the decode pipeline inverts
the encode pipeline — for every compression/encryption combination on the
worker backend, and on the direct backend whenever the persisted payload is
not a bare compressed byte array (i.e. no actual compression occurred, or
an encryption key wraps the bytes in a JSON-safe envelope).  Hypotheses
`hp`/`hgz`/`hb64`/`hcrypt` state that the platform JSON, gzip, base64 and
AES-GCM capabilities invert each other at the values this write produces. -/
theorem roundtrip_amended (cfg : Config) (c : Codecs) (iv : List Nat)
    (st : FacadeState) (key : String) (v : JValue)
    (hp : c.parse (c.stringify v) = some v)
    (hne : c.stringify v ≠ "")
    (hgz : ∀ bs, compress cfg c (c.stringify v) = .bytes bs →
      c.gunzip bs = some (c.stringify v))
    (hb64 : ∀ bs, compress cfg c (c.stringify v) = .bytes bs →
      c.unb64 (c.b64 bs) = bs)
    (hcrypt : ∀ k, cfg.encryptionKey = some k →
      c.decryptBytes k
          (c.encryptBytes k (dataToString c (compress cfg c (c.stringify v))) iv) iv =
        some (dataToString c (compress cfg c (c.stringify v))))
    (hsafe : cfg.hasServiceWorker = true ∨
      isBytesP (compress cfg c (c.stringify v)) = false ∨
      cfg.encryptionKey ≠ none)
    (hset : (setItemM cfg c iv st key v none).1.success = true) :
    (getItemM cfg c (backendOnly (setItemM cfg c iv st key v none).2) key).1 =
      ⟨true, some v, none⟩ := by
  obtain ⟨p, hp2, hres, hcache, hback⟩ := setItemM_success cfg c iv st key v none hset
  have hbo : backendLookup cfg (backendOnly (setItemM cfg c iv st key v none).2) key =
      backendLookup cfg (setItemM cfg c iv st key v none).2 key := by
    cases hw : cfg.hasServiceWorker <;> simp [backendLookup, backendOnly, hw]
  obtain ⟨hdec, htru⟩ := decode_roundtrip cfg c iv v p hp hne hgz hb64 hcrypt hsafe hp2
  have hgi : getItemM cfg c (backendOnly (setItemM cfg c iv st key v none).2) key =
      getItemBackend cfg c (backendOnly (setItemM cfg c iv st key v none).2) key := by
    simp [getItemM, backendOnly, alookup]
  rw [hgi]
  exact getItemBackend_found cfg c _ key _ v (hbo.trans hback) htru hdec

/-- **C1** (witness): the full pipeline — compress then encrypt on the
worker backend — round-trips `{x:1}`. -/
theorem roundtrip_amended_witness :
    (getItemM cfgFull demoCodecs
        (backendOnly (setItemM cfgFull demoCodecs [3, 4] st0 "a" vX none).2) "a").1 =
      ⟨true, some vX, none⟩ :=
  roundtrip_amended cfgFull demoCodecs [3, 4] st0 "a" vX rfl (by decide)
    (by intro bs h
        rw [show compress cfgFull demoCodecs (demoCodecs.stringify vX) =
            Payload.bytes [123, 34, 120, 34, 58, 49, 125] from rfl] at h
        injection h with h2
        subst h2
        rfl)
    (by intro bs h
        rw [show compress cfgFull demoCodecs (demoCodecs.stringify vX) =
            Payload.bytes [123, 34, 120, 34, 58, 49, 125] from rfl] at h
        injection h with h2
        subst h2
        rfl)
    (by intro k hk
        injection hk with hk2
        subst hk2
        rfl)
    (Or.inl rfl) rfl

/-- **C1** (counterexample to the claim as stated): on the direct backend
with compression enabled and no encryption, a successful
`setItem("a", "hello")` is followed by a failing backend read — the
compressed `Uint8Array` is mangled into a plain object by the
`JSON.stringify`/`response.json()` channel of `storeInCache`, and
decompression of that object throws, so `getItem` returns "Corrupt data"
instead of the stored value. -/
theorem roundtrip_counterexample :
    (setItemM cfgCompressDirect demoCodecs [] st0 "a" (.str "hello") none).1.success = true ∧
    (getItemM cfgCompressDirect demoCodecs
        (backendOnly (setItemM cfgCompressDirect demoCodecs [] st0 "a"
          (.str "hello") none).2) "a").1 = failR "Corrupt data" :=
  ⟨rfl, rfl⟩

/-- **C3** (code bug): on the direct backend the concrete lifecycle
scenario behaves exactly as the claim states — `setItem("a", {x:1})`
succeeds, `getItem` returns `{x:1}`, `removeItem` returns true, and the
final `getItem` fails with "Item not found"; but on the worker backend the
same final `getItem` still returns `{x:1}`, because `removeItem` deletes
only from the platform cache and the read cache and never messages the
worker, whose in-memory map keeps serving the entry. -/
theorem lifecycle_scenario_bug :
    (setItemM cfgDirect demoCodecs [] st0 "a" vX none).1 = ⟨true, some vX, none⟩ ∧
    (getItemM cfgDirect demoCodecs stSetD "a").1 = ⟨true, some vX, none⟩ ∧
    (removeItemM stGetD "a").1 = true ∧
    (getItemM cfgDirect demoCodecs (removeItemM stGetD "a").2 "a").1 =
      failR "Item not found" ∧
    (setItemM cfgWorker demoCodecs [] st0 "a" vX none).1 = ⟨true, some vX, none⟩ ∧
    (removeItemM stGetW "a").1 = true ∧
    (getItemM cfgWorker demoCodecs (removeItemM stGetW "a").2 "a").1 =
      ⟨true, some vX, none⟩ :=
  ⟨rfl, rfl, rfl, rfl, rfl, rfl, rfl⟩

/-- **C6** (corrected): after a successful `setItem(k, v)` with a *truthy*
`v`, an immediate `getItem(k)` returns `v` from the local read cache with
no backend call and no state change; and whenever `getItem` does consult
the backend and decodes a value, that value is inserted into the read
cache. -/
theorem read_through_cache_amended (cfg : Config) (c : Codecs) (iv : List Nat)
    (st : FacadeState) (key : String) (v : JValue) (schema : Option SchemaJ) :
    ((setItemM cfg c iv st key v schema).1.success = true → jsTruthy v = true →
      getItemM cfg c (setItemM cfg c iv st key v schema).2 key =
        (⟨true, some v, none⟩, (setItemM cfg c iv st key v schema).2, false)) ∧
    (∀ parsed, (getItemM cfg c st key).1.data = some parsed →
      (getItemM cfg c st key).2.2 = true →
      alookup (getItemM cfg c st key).2.1.cacheStore key = some parsed) := by
  constructor
  · intro hset htruthy
    obtain ⟨p, hp2, hres, hcache, hback⟩ := setItemM_success cfg c iv st key v schema hset
    simp [getItemM, hcache, htruthy]
  · intro parsed hdata hmiss
    revert hdata hmiss
    simp only [getItemM]
    cases alookup st.cacheStore key with
    | none => exact fun hdata _ => getItemBackend_inserts cfg c st key parsed hdata
    | some w =>
        by_cases ht : jsTruthy w = true
        · simp [ht]
        · simp only [Bool.not_eq_true] at ht
          simp only [ht, Bool.false_eq_true, if_false]
          exact fun hdata _ => getItemBackend_inserts cfg c st key parsed hdata

/-- **C6** (witness): after storing the truthy `{x:1}`, the immediate read
hits the cache, returns it, and makes no backend call. -/
theorem read_through_cache_witness :
    (setItemM cfgDirect demoCodecs [] st0 "a" vX none).1.success = true ∧
    getItemM cfgDirect demoCodecs (setItemM cfgDirect demoCodecs [] st0 "a" vX none).2 "a" =
      (⟨true, some vX, none⟩, (setItemM cfgDirect demoCodecs [] st0 "a" vX none).2, false) :=
  ⟨rfl, (read_through_cache_amended cfgDirect demoCodecs [] st0 "a" vX none).1 rfl rfl⟩

/-- **C6** (counterexample to the claim as stated): after a successful
`setItem("k", 0)`, the immediate `getItem` *does* make a backend call —
the falsy cached `0` fails the `if (cachedData)` check — even though the
right value is still returned. -/
theorem read_through_cache_counterexample :
    (setItemM cfgDirect demoCodecs [] st0 "k" (.num 0) none).1.success = true ∧
    (getItemM cfgDirect demoCodecs
        (setItemM cfgDirect demoCodecs [] st0 "k" (.num 0) none).2 "k").2.2 = true ∧
    (getItemM cfgDirect demoCodecs
        (setItemM cfgDirect demoCodecs [] st0 "k" (.num 0) none).2 "k").1.data =
      some (.num 0) :=
  ⟨rfl, rfl, rfl⟩

/-- **C7** (corrected): `updateItem` fails with the not-found error when
`getItem` fails *or* when the decoded current value is falsy (the source's
`!current.data` check); when `getItem` succeeds with a truthy value it
delegates to `setItem` with the spread-merge of the partial update over
the current value and the same schema. -/
theorem update_semantics_amended (cfg : Config) (c : Codecs) (iv : List Nat)
    (st : FacadeState) (key : String) (updates : List (String × JValue))
    (schema : Option SchemaJ) :
    ((getItemM cfg c st key).1.success = false →
      updateItemM cfg c iv st key updates schema =
        (failR ("Item with key " ++ key ++ " not found"),
         (getItemM cfg c st key).2.1)) ∧
    (∀ d, (getItemM cfg c st key).1.success = true →
      (getItemM cfg c st key).1.data = some d → jsTruthy d = true →
      updateItemM cfg c iv st key updates schema =
        setItemM cfg c iv (getItemM cfg c st key).2.1 key
          (.obj (mergeSpread (spreadFields d) updates)) schema) := by
  constructor
  · intro hs
    simp only [updateItemM, hs]
  · intro d hs hd ht
    simp only [updateItemM, hs, hd]
    simp [ht]

/-- **C7** (witness): on a stored `{name:"John", age:30}`,
`updateItem(k, {age:31})` delegates to `setItem` with the merged value,
and the stored value afterwards is `{name:"John", age:31}`. -/
theorem update_semantics_witness :
    updateItemM cfgDirect demoCodecs []
        (setItemM cfgDirect demoCodecs [] st0 "u"
          (.obj [("name", .str "John"), ("age", .num 30)]) none).2 "u"
        [("age", .num 31)] none =
      setItemM cfgDirect demoCodecs []
        (getItemM cfgDirect demoCodecs
          (setItemM cfgDirect demoCodecs [] st0 "u"
            (.obj [("name", .str "John"), ("age", .num 30)]) none).2 "u").2.1 "u"
        (.obj (mergeSpread
          (spreadFields (.obj [("name", .str "John"), ("age", .num 30)]))
          [("age", .num 31)])) none ∧
    alookup (updateItemM cfgDirect demoCodecs []
        (setItemM cfgDirect demoCodecs [] st0 "u"
          (.obj [("name", .str "John"), ("age", .num 30)]) none).2 "u"
        [("age", .num 31)] none).2.cacheStore "u" =
      some (.obj [("name", .str "John"), ("age", .num 31)]) :=
  ⟨(update_semantics_amended cfgDirect demoCodecs []
      (setItemM cfgDirect demoCodecs [] st0 "u"
        (.obj [("name", .str "John"), ("age", .num 30)]) none).2 "u"
      [("age", .num 31)] none).2
      (.obj [("name", .str "John"), ("age", .num 30)]) rfl rfl rfl,
   rfl⟩

/-- **C7** (counterexample to the claim as stated): with a stored `false`,
`getItem` succeeds with data `false`, yet `updateItem` fails with the
not-found error because the falsy decoded value fails `!current.data`. -/
theorem update_semantics_counterexample :
    (getItemM cfgDirect demoCodecs
        (setItemM cfgDirect demoCodecs [] st0 "k" (.bool false) none).2 "k").1 =
      ⟨true, some (.bool false), none⟩ ∧
    (updateItemM cfgDirect demoCodecs []
        (setItemM cfgDirect demoCodecs [] st0 "k" (.bool false) none).2 "k"
        [] none).1 =
      failR "Item with key k not found" :=
  ⟨rfl, rfl⟩

/-- **C8** (corrected): for every entry a successful `setItem` persists,
`metadata.compressed` is true iff the *post-compression, pre-encryption*
payload differs from the plain serialized form (equivalently, iff the
compression step produced bytes), and `metadata.compressedSize` is the
byte length of that pre-encryption payload — not of the persisted
encrypted envelope. -/
theorem metadata_invariant_amended (cfg : Config) (c : Codecs) (iv : List Nat)
    (st : FacadeState) (key : String) (v : JValue) (schema : Option SchemaJ)
    (h : (setItemM cfg c iv st key v schema).1.success = true) :
    ∃ sd, backendLookup cfg (setItemM cfg c iv st key v schema).2 key = some sd ∧
      sd.metadata.compressed = isBytesP (compress cfg c (c.stringify v)) ∧
      (sd.metadata.compressed = true ↔
        payloadDiffersFrom (compress cfg c (c.stringify v)) (c.stringify v) = true) ∧
      sd.metadata.compressedSize = payloadSize (compress cfg c (c.stringify v)) ∧
      sd.metadata.originalSize = strBytes (c.stringify v) := by
  obtain ⟨p, hp2, hres, hcache, hback⟩ := setItemM_success cfg c iv st key v schema h
  refine ⟨_, hback, rfl, ?_, rfl, rfl⟩
  rcases compress_cases cfg c (c.stringify v) with hc | ⟨bs, hc, henab, hgzv⟩
  · rw [hc]; simp [isBytesP, payloadDiffersFrom]
  · rw [hc]; simp [isBytesP, payloadDiffersFrom]

/-- **C8** (witness): the amended invariant at a concrete uncompressed,
unencrypted write of `{x:1}` on the worker backend. -/
theorem metadata_invariant_witness :
    ∃ sd, backendLookup cfgWorker
        (setItemM cfgWorker demoCodecs [] st0 "a" vX none).2 "a" = some sd ∧
      sd.metadata.compressed = isBytesP (compress cfgWorker demoCodecs
        (demoCodecs.stringify vX)) ∧
      (sd.metadata.compressed = true ↔
        payloadDiffersFrom (compress cfgWorker demoCodecs (demoCodecs.stringify vX))
          (demoCodecs.stringify vX) = true) ∧
      sd.metadata.compressedSize = payloadSize (compress cfgWorker demoCodecs
        (demoCodecs.stringify vX)) ∧
      sd.metadata.originalSize = strBytes (demoCodecs.stringify vX) :=
  metadata_invariant_amended cfgWorker demoCodecs [] st0 "a" vX none rfl

/-- The concrete entry that `setItem("a", {x:1})` under `cfgEnc` persists:
the encrypted envelope of the seven-byte serialized form, with the
metadata computed before encryption. -/
def sdEnc : StoredData :=
  ⟨.enc ⟨[7, 123, 34, 120, 34, 58, 49, 125], [9, 9], false⟩, ⟨false, 7, 7⟩⟩

/-- **C8** (counterexample to the claim as stated): with an encryption key
configured, the persisted payload is the encrypted envelope — whose
ciphertext alone is 8 bytes — while `compressedSize` records the 7-byte
pre-encryption form; and the persisted payload differs from the plain
serialized form although `metadata.compressed` is false. -/
theorem metadata_invariant_counterexample :
    backendLookup cfgEnc (setItemM cfgEnc demoCodecs [9, 9] st0 "a" vX none).2 "a" =
      some sdEnc ∧
    sdEnc.metadata.compressedSize ≠ payloadSize sdEnc.data ∧
    payloadDiffersFrom sdEnc.data (demoCodecs.stringify vX) = true ∧
    sdEnc.metadata.compressed = false :=
  ⟨rfl, by decide, rfl, rfl⟩

end CacheStorage
